import Mathlib

/-!
Verification of the septic-shock early-warning calculator (`src/app1.py`)
against its natural-language specification.

The pipeline is embedded shallowly:
* raw clinical inputs are a 15-field structure (`RawInputs`);
* the pandas single-row `DataFrame(..., columns=model.feature_names_in_)`
  becomes `buildRecord` (a reindex of a name-value dictionary, missing
  columns become `none`, i.e. NaN);
* `model.predict_proba(...)[0][1]` becomes `score` over an opaque
  classifier (`Classifier`), with Python index errors modelled by `Option`;
* the tier branch (`if prob >= 0.50 / elif prob >= 0.20 / else`) becomes
  `tierOfFloat` / `tierOfProb`, where an IEEE NaN probability is `none`
  (every comparison with NaN is false);
* the SHAP slice `shap_exp[0, :, 1]` becomes `engineSlice` over the raw
  (sample, feature, class) value tensor;
* the attribution ranking used for display has no code in `src/` (it is
  performed inside the plotting collaborator), so `rank` is modelled from
  the spec.
-/

/-- Risk tiers of the tiering policy. -/
inductive RiskTier where
  | High
  | Moderate
  | Low
deriving DecidableEq, Repr

/-- Source, line 100-105: the tier branch on a real (non-NaN) probability:
`if prob >= 0.50` then High, `elif prob >= 0.20` then Moderate, else Low. -/
def tierOfProb (p : ℚ) : RiskTier :=
  if 1/2 ≤ p then RiskTier.High
  else if 1/5 ≤ p then RiskTier.Moderate
  else RiskTier.Low

/-- Source, line 100-105, with IEEE float comparison semantics: a NaN
probability (`none`) makes both `>=` comparisons false. -/
def floatGe (v : Option ℚ) (t : ℚ) : Bool :=
  match v with
  | none => false
  | some p => decide (t ≤ p)

/-- The tier branch over a float value that may be NaN (`none`). -/
def tierOfFloat (v : Option ℚ) : RiskTier :=
  if floatGe v (1/2) then RiskTier.High
  else if floatGe v (1/5) then RiskTier.Moderate
  else RiskTier.Low

/-- Source, lines 101/103/105: the full banner strings displayed per tier. -/
def tierMessage : RiskTier → String
  | RiskTier.High => "🚨 **High Risk**: Immediate evaluation and early aggressive intervention recommended."
  | RiskTier.Moderate => "⚠️ **Moderate Risk**: Close monitoring and early warning advised."
  | RiskTier.Low => "✅ **Low Risk**: Continue routine ICU care and observation."

/-- The recommendation component of each banner string (the part after the
tier label), transcribed from source lines 101/103/105. -/
def tierAdvice : RiskTier → String
  | RiskTier.High => "Immediate evaluation and early aggressive intervention recommended."
  | RiskTier.Moderate => "Close monitoring and early warning advised."
  | RiskTier.Low => "Continue routine ICU care and observation."

/-- The 15 raw clinical inputs collected by the form (source lines 43-61).
Pneumonia and COPD are checkboxes (booleans); the rest are numbers,
modelled as rationals. -/
structure RawInputs where
  Pneumonia : Bool
  COPD : Bool
  age : ℚ
  heartrate : ℚ
  SBP : ℚ
  respiratoryrate : ℚ
  spo2 : ℚ
  temperature : ℚ
  WBC : ℚ
  Albumin : ℚ
  ALT : ℚ
  BUN : ℚ
  sodium : ℚ
  Plateletcount : ℚ
  SOFA : ℚ

/-- Python `int(b)` on a checkbox boolean. -/
def boolToInt (b : Bool) : ℚ := if b then 1 else 0

/-- Source lines 68-83: the name-value dictionary built from the raw
inputs, in source order, with the two booleans coerced by `int(...)`. -/
def rawDict (r : RawInputs) : List (String × ℚ) :=
  [("Pneumonia", boolToInt r.Pneumonia),
   ("COPD", boolToInt r.COPD),
   ("age", r.age),
   ("heartrate", r.heartrate),
   ("SBP", r.SBP),
   ("respiratoryrate", r.respiratoryrate),
   ("spo2", r.spo2),
   ("temperature", r.temperature),
   ("WBC", r.WBC),
   ("Albumin", r.Albumin),
   ("ALT", r.ALT),
   ("BUN", r.BUN),
   ("sodium", r.sodium),
   ("Plateletcount", r.Plateletcount),
   ("SOFA", r.SOFA)]

/-- The 15 known feature names, in the order they appear in the source
dictionary. -/
def knownFeatureNames : List String :=
  ["Pneumonia", "COPD", "age", "heartrate", "SBP", "respiratoryrate",
   "spo2", "temperature", "WBC", "Albumin", "ALT", "BUN", "sodium",
   "Plateletcount", "SOFA"]

/-- A single-row feature record: one column per name, `none` standing for
a pandas NaN cell. -/
abbrev Record := List (String × Option ℚ)

/-- Source line 84: `pd.DataFrame([dict], columns=model.feature_names_in_)`.
Pandas reindexes the dictionary by the `columns` list: the output columns
are exactly `expected`, in order; a column whose name is absent from the
dictionary is filled with NaN (`none`); a dictionary key absent from
`expected` is dropped.  This constructor never raises. -/
def buildRecord (expected : List String) (r : RawInputs) : Record :=
  expected.map (fun n => (n, (rawDict r).lookup n))

/-- An opaque binary probabilistic classifier: `predict_proba` on a
single-row record, returning one row of class probabilities per sample. -/
abbrev Classifier := Record → List (List ℚ)

/-- Source line 92: `prob = model.predict_proba(input_data)[0][1]` — row 0
(the single sample), class index 1 (positive class).  A Python
`IndexError` is modelled by `none`. -/
def score (m : Classifier) (rec : Record) : Option ℚ :=
  ((m rec).get? 0).bind (fun row => row.get? 1)

/-- The Build → Score stage of the pipeline: the record produced by
`buildRecord` is handed to `predict_proba` unchanged. -/
def pipelineScore (m : Classifier) (expected : List String) (r : RawInputs) : Option ℚ :=
  score m (buildRecord expected r)

/-- Modelled from the spec (section 4.1): the spec's `build` fails with
`SchemaMismatch` (here `none`) when the externally supplied expected-order
list does not contain exactly the 15 known names; the source has no such
check.  Kept only to compare the spec's claimed failure behaviour with the
source's `buildRecord`. -/
def buildSpec (expected : List String) (r : RawInputs) : Option Record :=
  if (∀ n ∈ knownFeatureNames, n ∈ expected) ∧
     (∀ n ∈ expected, n ∈ knownFeatureNames) ∧ expected.Nodup then
    some (buildRecord expected r)
  else
    none

/-- Illustrative default inputs (the form's default values, source
lines 43-61). -/
def rawDefault : RawInputs :=
  { Pneumonia := false, COPD := false, age := 65, heartrate := 90,
    SBP := 120, respiratoryrate := 20, spo2 := 96, temperature := 368/10,
    WBC := 8, Albumin := 7/2, ALT := 30, BUN := 20, sodium := 135,
    Plateletcount := 200, SOFA := 6 }

/-- A concrete constant classifier used to instantiate universally
quantified statements. -/
def constClassifier : Classifier := fun _ => [[7/10, 3/10]]

/-- The output of the attribution collaborator (`explainer(input_data)`,
source line 116): `values` is the (sample, feature, class) tensor of
signed contributions and `baseValues` the (sample, class) matrix of
baselines (expected values). -/
structure ShapOut where
  values : List (List (List ℚ))
  baseValues : List (List ℚ)

/-- Index every per-feature class list at class 1 (the positive class);
an out-of-range index is a Python `IndexError`, modelled by `none`. -/
def classSlice : List (List ℚ) → Option (List ℚ)
  | [] => some []
  | fv :: rest =>
    match fv.get? 1, classSlice rest with
    | some c, some cs => some (c :: cs)
    | _, _ => none

/-- Source line 119: `shap_single = shap_exp[0, :, 1]` — the contribution
vector of sample 0 for class 1, together with the matching baseline
`base_values[0][1]`. -/
def engineSlice (e : ShapOut) : Option (List ℚ × ℚ) :=
  (e.values.get? 0).bind fun s0 =>
  (classSlice s0).bind fun contribs =>
  (e.baseValues.get? 0).bind fun b0 =>
  (b0.get? 1).map fun b => (contribs, b)

/-- The contribution sum of sample 0, class 1, read directly off the
tensor (used to state the attribution library's additivity contract). -/
def shapSum01 (e : ShapOut) : ℚ :=
  ((e.values.getD 0 []).map (fun fv => fv.getD 1 0)).sum

/-- The baseline of sample 0, class 1, read directly off the tensor. -/
def shapBase01 (e : ShapOut) : ℚ :=
  (e.baseValues.getD 0 []).getD 1 0

/-- The positive-class probability of sample 0, read directly off the
classifier output (used to state the additivity contract). -/
def proba01 (m : Classifier) (rec : Record) : ℚ :=
  ((m rec).getD 0 []).getD 1 0

/-- Modelled from the spec (section 4.5): the Attribution Ranker has no
code under `src/` (the display ordering happens inside the plotting
collaborator), so the ranking is modelled from the spec's words: order
entries by descending absolute contribution, stable tie-break by original
feature order.  `rankRel` compares an index-tagged entry: strictly larger
magnitude first, equal magnitudes resolved by original position. -/
def rankRel (a b : ℕ × String × ℚ) : Prop :=
  |b.2.2| < |a.2.2| ∨ (|a.2.2| = |b.2.2| ∧ a.1 ≤ b.1)

instance : DecidableRel rankRel := fun a b => by
  unfold rankRel
  exact inferInstance

instance : IsTotal (ℕ × String × ℚ) rankRel where
  total a b := by
    unfold rankRel
    rcases lt_trichotomy |a.2.2| |b.2.2| with h | h | h
    · exact Or.inr (Or.inl h)
    · rcases Nat.le_total a.1 b.1 with hi | hi
      · exact Or.inl (Or.inr ⟨h, hi⟩)
      · exact Or.inr (Or.inr ⟨h.symm, hi⟩)
    · exact Or.inl (Or.inl h)

instance : IsTrans (ℕ × String × ℚ) rankRel where
  trans a b c hab hbc := by
    unfold rankRel at *
    rcases hab with h1 | ⟨h1, hi1⟩
    · rcases hbc with h2 | ⟨h2, _⟩
      · exact Or.inl (h2.trans h1)
      · exact Or.inl (h2 ▸ h1)
    · rcases hbc with h2 | ⟨h2, hi2⟩
      · exact Or.inl (h1.symm ▸ h2)
      · exact Or.inr ⟨h1.trans h2, hi1.trans hi2⟩

/-- Tag each entry with its original position, starting at `i`. -/
def withIdx (i : ℕ) : List (String × ℚ) → List (ℕ × String × ℚ)
  | [] => []
  | x :: xs => (i, x) :: withIdx (i + 1) xs

/-- Modelled from the spec (section 4.5): rank the attribution vector by
descending absolute contribution, stable tie-break by original feature
order (insertion sort on the index-tagged entries is stable). -/
def rank (v : List (String × ℚ)) : List (String × ℚ) :=
  (List.insertionSort rankRel (withIdx 0 v)).map Prod.snd

/-- A concrete two-sample, two-feature, two-class attribution output used
to instantiate universally quantified statements. -/
def shapExample : ShapOut :=
  { values := [[[1, 2], [3, 4]], [[9, 9], [9, 9]]],
    baseValues := [[5, 6], [8, 8]] }

/-- A concrete single-sample, two-feature attribution output whose
positive-class slice sums (with its baseline) to the classifier output of
`classifierConst2`. -/
def shapExample2 : ShapOut :=
  { values := [[[0, 1], [0, 2]]],
    baseValues := [[0, 3]] }

/-- A concrete classifier matching `shapExample2`: positive-class
probability 6 of the formal additivity check. -/
def classifierConst2 : Classifier := fun _ => [[0, 6]]

/-- Claim C1: the tiering function maps every probability in [0,1] to
exactly one tier by the fixed thresholds evaluated high-to-low: p ≥ 0.50
yields High, 0.20 ≤ p < 0.50 yields Moderate, p < 0.20 yields Low; in
particular p = 0.50 yields High and p = 0.20 yields Moderate. -/
theorem tierOfProb_thresholds :
    (∀ p : ℚ, 0 ≤ p → p ≤ 1 →
      ((tierOfProb p = RiskTier.High ↔ 1/2 ≤ p) ∧
       (tierOfProb p = RiskTier.Moderate ↔ 1/5 ≤ p ∧ p < 1/2) ∧
       (tierOfProb p = RiskTier.Low ↔ p < 1/5))) ∧
    tierOfProb (1/2) = RiskTier.High ∧
    tierOfProb (1/5) = RiskTier.Moderate := by
  refine ⟨?_, by norm_num [tierOfProb], by norm_num [tierOfProb]⟩
  intro p _ _
  unfold tierOfProb
  split_ifs with hH hM
  · exact ⟨iff_of_true rfl hH,
           iff_of_false (by simp) (by push_neg; intro _; linarith),
           iff_of_false (by simp) (by push_neg; linarith)⟩
  · exact ⟨iff_of_false (by simp) hH,
           iff_of_true rfl ⟨hM, lt_of_not_le hH⟩,
           iff_of_false (by simp) (not_lt.mpr hM)⟩
  · exact ⟨iff_of_false (by simp) hH,
           iff_of_false (by simp) (fun h => hM h.1),
           iff_of_true rfl (lt_of_not_le hM)⟩

/-- Witness for C1 at concrete probabilities. -/
theorem tierOfProb_thresholds_witness :
    (tierOfProb (1/2) = RiskTier.High ↔ (1:ℚ)/2 ≤ 1/2) ∧
    (tierOfProb (1/5) = RiskTier.Moderate ↔ (1:ℚ)/5 ≤ 1/5 ∧ (1:ℚ)/5 < 1/2) ∧
    (tierOfProb 0 = RiskTier.Low ↔ (0:ℚ) < 1/5) := by
  refine ⟨((tierOfProb_thresholds.1 (1/2) (by norm_num) (by norm_num)).1),
          ((tierOfProb_thresholds.1 (1/5) (by norm_num) (by norm_num)).2.1),
          ((tierOfProb_thresholds.1 0 (by norm_num) (by norm_num)).2.2)⟩

/-- Claim C9: the tier branch is exhaustive over all float inputs, not only
[0,1]: every input gets exactly one tier; any value ≥ 0.50 (including
values above 1) is High; NaN (both comparisons false) and any value below
0.20 (including negatives) are Low. -/
theorem tierOfFloat_exhaustive :
    (∀ v : Option ℚ,
      tierOfFloat v = RiskTier.High ∨ tierOfFloat v = RiskTier.Moderate ∨
        tierOfFloat v = RiskTier.Low) ∧
    (∀ q : ℚ, 1/2 ≤ q → tierOfFloat (some q) = RiskTier.High) ∧
    tierOfFloat none = RiskTier.Low ∧
    (∀ q : ℚ, q < 1/5 → tierOfFloat (some q) = RiskTier.Low) := by
  have hsome : ∀ q : ℚ, tierOfFloat (some q) = tierOfProb q := by
    intro q
    unfold tierOfFloat tierOfProb floatGe
    simp only [decide_eq_true_eq]
  refine ⟨?_, ?_, rfl, ?_⟩
  · intro v
    unfold tierOfFloat
    split_ifs
    · exact Or.inl rfl
    · exact Or.inr (Or.inl rfl)
    · exact Or.inr (Or.inr rfl)
  · intro q hq
    rw [hsome]
    unfold tierOfProb
    rw [if_pos hq]
  · intro q hq
    rw [hsome]
    unfold tierOfProb
    rw [if_neg (by linarith), if_neg (by linarith)]

/-- Witness for C9: a value above 1 is High, NaN is Low, a negative value
is Low. -/
theorem tierOfFloat_exhaustive_witness :
    tierOfFloat (some 2) = RiskTier.High ∧
    tierOfFloat none = RiskTier.Low ∧
    tierOfFloat (some (-1)) = RiskTier.Low :=
  ⟨tierOfFloat_exhaustive.2.1 2 (by norm_num),
   tierOfFloat_exhaustive.2.2.1,
   tierOfFloat_exhaustive.2.2.2 (-1) (by norm_num)⟩

/-- Claim C7 counterexample: the Low tier's recommendation string in the
source is not the spec's "Continue routine care and observation." — the
source says "Continue routine ICU care and observation." (line 105). -/
theorem tierAdvice_low_cex :
    tierAdvice RiskTier.Low ≠ "Continue routine care and observation." := by
  decide

/-- Claim C7 as amended: High carries "Immediate evaluation and early
aggressive intervention recommended.", Moderate carries "Close monitoring
and early warning advised.", and Low carries "Continue routine ICU care
and observation."; each banner string displayed by the source is the tier
label followed by exactly that recommendation. -/
theorem tierAdvice_strings :
    tierAdvice RiskTier.High =
      "Immediate evaluation and early aggressive intervention recommended." ∧
    tierAdvice RiskTier.Moderate =
      "Close monitoring and early warning advised." ∧
    tierAdvice RiskTier.Low =
      "Continue routine ICU care and observation." ∧
    tierMessage RiskTier.High = "🚨 **High Risk**: " ++ tierAdvice RiskTier.High ∧
    tierMessage RiskTier.Moderate = "⚠️ **Moderate Risk**: " ++ tierAdvice RiskTier.Moderate ∧
    tierMessage RiskTier.Low = "✅ **Low Risk**: " ++ tierAdvice RiskTier.Low := by
  refine ⟨rfl, rfl, rfl, ?_, ?_, ?_⟩ <;> decide

/-- Helper: `List.lookup` misses when the key is not among the stored
keys (the pandas NaN-fill case). -/
theorem lookup_of_not_mem_keys (l : List (String × ℚ)) (a : String)
    (h : a ∉ l.map Prod.fst) : l.lookup a = none := by
  induction l with
  | nil => rfl
  | cons p t ih =>
    obtain ⟨k, v⟩ := p
    simp only [List.map_cons, List.mem_cons, not_or] at h
    simp only [List.lookup, beq_eq_false_iff_ne.mpr h.1]
    exact ih h.2

/-- Helper: every known feature name hits the source dictionary. -/
theorem lookup_rawDict_of_known (r : RawInputs) {n : String}
    (hn : n ∈ knownFeatureNames) : ∃ q, (rawDict r).lookup n = some q := by
  simp only [knownFeatureNames, List.mem_cons, List.not_mem_nil, or_false] at hn
  rcases hn with rfl | rfl | rfl | rfl | rfl | rfl | rfl | rfl | rfl | rfl |
    rfl | rfl | rfl | rfl | rfl
  all_goals exact ⟨_, rfl⟩

/-- Claim C2: for every set of raw inputs, the builder's output column
order is exactly the externally declared expected order, and on the known
15 names the values are the raw inputs with the two booleans coerced to
0/1 and no other transformation. -/
theorem buildRecord_order_and_coercion :
    (∀ (expected : List String) (r : RawInputs),
      (buildRecord expected r).map Prod.fst = expected) ∧
    (∀ r : RawInputs,
      buildRecord knownFeatureNames r =
        [("Pneumonia", some (if r.Pneumonia then 1 else 0)),
         ("COPD", some (if r.COPD then 1 else 0)),
         ("age", some r.age),
         ("heartrate", some r.heartrate),
         ("SBP", some r.SBP),
         ("respiratoryrate", some r.respiratoryrate),
         ("spo2", some r.spo2),
         ("temperature", some r.temperature),
         ("WBC", some r.WBC),
         ("Albumin", some r.Albumin),
         ("ALT", some r.ALT),
         ("BUN", some r.BUN),
         ("sodium", some r.sodium),
         ("Plateletcount", some r.Plateletcount),
         ("SOFA", some r.SOFA)]) := by
  constructor
  · intro expected r
    simp [buildRecord, Function.comp_def]
  · intro r
    rfl

/-- Claim C6 counterexample: with the expected list omitting "COPD" (one
of the 15 known names) and the default inputs, the spec-modelled builder
reports SchemaMismatch (`none`), but the source builder does not fail: it
returns a complete 14-column record and inference on it succeeds. -/
theorem buildRecord_no_schema_failure_cex :
    buildSpec (knownFeatureNames.erase "COPD") rawDefault = none ∧
    (buildRecord (knownFeatureNames.erase "COPD") rawDefault).map Prod.fst =
      knownFeatureNames.erase "COPD" ∧
    (∀ x ∈ buildRecord (knownFeatureNames.erase "COPD") rawDefault,
      x.2.isSome = true) ∧
    score constClassifier (buildRecord (knownFeatureNames.erase "COPD") rawDefault) =
      some (3/10) := by
  refine ⟨by decide, by decide, by decide, rfl⟩

/-- Claim C6 as amended: if the expected list omits one of the 15 known
names, the builder does not fail and raises no SchemaMismatch: it returns
a record whose columns are exactly the expected list (the omitted input is
silently dropped, every remaining column filled from the inputs), and that
record is passed on to inference unchanged. -/
theorem buildRecord_omitted_name_total (r : RawInputs) (n : String)
    (hn : n ∈ knownFeatureNames) (m : Classifier) :
    (buildRecord (knownFeatureNames.erase n) r).length = 14 ∧
    (buildRecord (knownFeatureNames.erase n) r).map Prod.fst =
      knownFeatureNames.erase n ∧
    (∀ x ∈ buildRecord (knownFeatureNames.erase n) r, x.2.isSome = true) ∧
    pipelineScore m (knownFeatureNames.erase n) r =
      score m (buildRecord (knownFeatureNames.erase n) r) := by
  refine ⟨?_, ?_, ?_, rfl⟩
  · have h1 : (buildRecord (knownFeatureNames.erase n) r).length =
        (knownFeatureNames.erase n).length := by
      simp [buildRecord]
    rw [h1, List.length_erase_of_mem hn]
    rfl
  · simp [buildRecord, Function.comp_def]
  · intro x hx
    unfold buildRecord at hx
    simp only [List.mem_map] at hx
    obtain ⟨name, hmem, rfl⟩ := hx
    obtain ⟨q, hq⟩ := lookup_rawDict_of_known r (List.mem_of_mem_erase hmem)
    simp [hq]

/-- Witness for the amended C6 at the concrete omitted name "COPD". -/
theorem buildRecord_omitted_name_total_witness :
    (buildRecord (knownFeatureNames.erase "COPD") rawDefault).length = 14 ∧
    (buildRecord (knownFeatureNames.erase "COPD") rawDefault).map Prod.fst =
      knownFeatureNames.erase "COPD" ∧
    pipelineScore constClassifier (knownFeatureNames.erase "COPD") rawDefault =
      score constClassifier (buildRecord (knownFeatureNames.erase "COPD") rawDefault) := by
  have h := buildRecord_omitted_name_total rawDefault "COPD" (by decide) constClassifier
  exact ⟨h.1, h.2.1, h.2.2.2⟩

/-- Claim C10: record assembly never raises on a mismatched expected-name
list: an expected name outside the 15 inputs becomes a NaN (`none`)
column, a provided input name absent from the expected order is silently
dropped, and the resulting record is passed to inference unchanged. -/
theorem buildRecord_mismatch_semantics (m : Classifier)
    (expected : List String) (r : RawInputs) :
    (buildRecord expected r).map Prod.fst = expected ∧
    (∀ n ∈ expected, n ∉ knownFeatureNames →
      (n, (none : Option ℚ)) ∈ buildRecord expected r) ∧
    (∀ n ∈ knownFeatureNames, n ∉ expected →
      ∀ x ∈ buildRecord expected r, x.1 ≠ n) ∧
    pipelineScore m expected r = score m (buildRecord expected r) := by
  refine ⟨?_, ?_, ?_, rfl⟩
  · simp [buildRecord, Function.comp_def]
  · intro n hn hout
    have hkeys : (rawDict r).map Prod.fst = knownFeatureNames := rfl
    have hnone : (rawDict r).lookup n = none :=
      lookup_of_not_mem_keys _ _ (by rw [hkeys]; exact hout)
    unfold buildRecord
    simp only [List.mem_map]
    exact ⟨n, hn, by rw [hnone]⟩
  · intro n _ hout x hx
    unfold buildRecord at hx
    simp only [List.mem_map] at hx
    obtain ⟨name, hmem, rfl⟩ := hx
    intro hcontra
    simp only at hcontra
    exact hout (hcontra ▸ hmem)

/-- Witness for C10 at the concrete expected list ["age", "XYZ"]: the
unknown column "XYZ" is NaN, the provided "COPD" is dropped, and the
record is passed to inference unchanged. -/
theorem buildRecord_mismatch_semantics_witness :
    (buildRecord ["age", "XYZ"] rawDefault).map Prod.fst = ["age", "XYZ"] ∧
    ("XYZ", (none : Option ℚ)) ∈ buildRecord ["age", "XYZ"] rawDefault ∧
    (∀ x ∈ buildRecord ["age", "XYZ"] rawDefault, x.1 ≠ "COPD") ∧
    pipelineScore constClassifier ["age", "XYZ"] rawDefault =
      score constClassifier (buildRecord ["age", "XYZ"] rawDefault) := by
  have h := buildRecord_mismatch_semantics constClassifier ["age", "XYZ"] rawDefault
  exact ⟨h.1, h.2.1 "XYZ" (by decide) (by decide),
         h.2.2.1 "COPD" (by decide) (by decide), h.2.2.2⟩

/-- Helper: a successful index hit determines `getD`. -/
theorem getD_of_get?_eq {α : Type} {l : List α} {n : ℕ} {a : α} (d : α)
    (h : l.get? n = some a) : l.getD n d = a := by
  rw [List.getD_eq_getElem?_getD, ← List.get?_eq_getElem?, h]
  rfl

/-- Helper: a successful `classSlice` is exactly the class-1 projection:
it has one entry per feature, each entry is the feature's class-1 value,
and the whole list is the class-1 map. -/
theorem classSlice_spec : ∀ {l : List (List ℚ)} {cs : List ℚ},
    classSlice l = some cs →
    cs.length = l.length ∧
    (∀ i, cs.get? i = (l.get? i).bind (fun fv => fv.get? 1)) ∧
    cs = l.map (fun fv => fv.getD 1 0) := by
  intro l
  induction l with
  | nil =>
    intro cs h
    simp only [classSlice, Option.some_inj] at h
    subst h
    refine ⟨rfl, ?_, rfl⟩
    intro i
    simp
  | cons fv rest ih =>
    intro cs h
    unfold classSlice at h
    cases hc : fv.get? 1 with
    | none => rw [hc] at h; simp at h
    | some c =>
      cases hr : classSlice rest with
      | none => rw [hc, hr] at h; simp at h
      | some cs' =>
        rw [hc, hr] at h
        simp only [Option.some_inj] at h
        subst h
        obtain ⟨hlen, hpt, hmap⟩ := ih hr
        refine ⟨by simp [hlen], ?_, ?_⟩
        · intro i
          cases i with
          | zero => exact hc.symm
          | succ j => exact hpt j
        · simp only [List.map_cons]
          exact (getD_of_get?_eq 0 hc) ▸ hmap ▸ rfl

/-- Helper: `classSlice` succeeds whenever every feature has at least two
classes. -/
theorem classSlice_total : ∀ {l : List (List ℚ)},
    (∀ fv ∈ l, 2 ≤ fv.length) → ∃ cs, classSlice l = some cs := by
  intro l
  induction l with
  | nil => exact fun _ => ⟨[], rfl⟩
  | cons fv rest ih =>
    intro h
    obtain ⟨cs', hcs'⟩ := ih (fun fv hfv => h fv (List.mem_cons_of_mem _ hfv))
    have hfv2 : 2 ≤ fv.length := h fv (List.mem_cons_self _ _)
    obtain ⟨c, hc⟩ : ∃ c, fv.get? 1 = some c := by
      cases fv with
      | nil => simp at hfv2
      | cons x t =>
        cases t with
        | nil => simp at hfv2
        | cons y t2 => exact ⟨y, rfl⟩
    exact ⟨c :: cs', by unfold classSlice; rw [hc, hcs']⟩

/-- Claim C3: the scorer returns the probability mass the classifier
assigns to the positive class (index 1) of the single supplied sample
(index 0); given the classifier contract that every reported probability
lies in [0,1], the returned value lies in [0,1].  Determinism for a fixed
classifier and record is inherent: `score` is a pure function. -/
theorem score_positive_class (m : Classifier) (rec : Record) (p : ℚ)
    (hcal : ∀ row ∈ m rec, ∀ x ∈ row, 0 ≤ x ∧ x ≤ 1)
    (hp : score m rec = some p) :
    (0 ≤ p ∧ p ≤ 1) ∧
    ∃ row, (m rec).get? 0 = some row ∧ row.get? 1 = some p := by
  unfold score at hp
  cases h0 : (m rec).get? 0 with
  | none => rw [h0] at hp; simp at hp
  | some row =>
    rw [h0, Option.some_bind] at hp
    exact ⟨hcal row (List.get?_mem h0) p (List.get?_mem hp), ⟨row, rfl, hp⟩⟩

/-- Witness for C3: the constant classifier returning [0.7, 0.3] scores
the default record at 0.3, which lies in [0,1]. -/
theorem score_positive_class_witness :
    ((0:ℚ) ≤ 3/10 ∧ (3/10:ℚ) ≤ 1) ∧
    ∃ row, (constClassifier (buildRecord knownFeatureNames rawDefault)).get? 0 = some row ∧
      row.get? 1 = some (3/10) := by
  refine score_positive_class constClassifier (buildRecord knownFeatureNames rawDefault)
    (3/10) ?_ rfl
  intro row hrow x hx
  simp only [constClassifier, List.mem_singleton] at hrow
  subst hrow
  simp only [List.mem_cons, List.mem_singleton, List.not_mem_nil, or_false] at hx
  rcases hx with rfl | rfl <;> norm_num

/-- Claim C4: the attribution engine selects from the multi-sample,
per-class tensor exactly the slice of sample 0 and class 1 (the positive
class): whenever the tensor has a first sample whose features all carry at
least two class values and a first baseline row with at least two classes,
the engine returns the vector whose i-th entry is the tensor value at
(sample 0, feature i, class 1), paired with the baseline at
(sample 0, class 1). -/
theorem engineSlice_selects (e : ShapOut) (s0 : List (List ℚ)) (b0 : List ℚ)
    (h0 : e.values.get? 0 = some s0)
    (hfv : ∀ fv ∈ s0, 2 ≤ fv.length)
    (hb0 : e.baseValues.get? 0 = some b0)
    (hb1 : 2 ≤ b0.length) :
    ∃ contribs b,
      engineSlice e = some (contribs, b) ∧
      contribs.length = s0.length ∧
      (∀ i, contribs.get? i = (s0.get? i).bind (fun fv => fv.get? 1)) ∧
      b0.get? 1 = some b := by
  obtain ⟨cs, hcs⟩ := classSlice_total hfv
  obtain ⟨b, hb⟩ : ∃ b, b0.get? 1 = some b := by
    cases b0 with
    | nil => simp at hb1
    | cons x t =>
      cases t with
      | nil => simp at hb1
      | cons y t2 => exact ⟨y, rfl⟩
  obtain ⟨hlen, hpt, _⟩ := classSlice_spec hcs
  refine ⟨cs, b, ?_, hlen, hpt, hb⟩
  unfold engineSlice
  rw [h0, Option.some_bind, hcs, Option.some_bind, hb0, Option.some_bind, hb,
    Option.map_some']

/-- Witness for C4 on a concrete two-sample, two-class tensor. -/
theorem engineSlice_selects_witness :
    ∃ contribs b,
      engineSlice shapExample = some (contribs, b) ∧
      contribs.length = ([[1, 2], [3, 4]] : List (List ℚ)).length ∧
      (∀ i, contribs.get? i =
        (([[1, 2], [3, 4]] : List (List ℚ)).get? i).bind (fun fv => fv.get? 1)) ∧
      ([5, 6] : List ℚ).get? 1 = some b :=
  engineSlice_selects shapExample [[1, 2], [3, 4]] [5, 6] rfl (by decide) rfl (by decide)

/-- Claim C5: the slice returned by the attribution engine preserves the
additive identity: if the attribution collaborator satisfies its additive
contract at (sample 0, class 1) — baseline plus contribution sum within
ε = 1e-4 of the classifier's positive-class probability — then the
engine's returned baseline and contribution vector satisfy
|baseline + Σ contributions − probability| < ε for the scored
probability. -/
theorem engineSlice_additive (e : ShapOut) (m : Classifier) (rec : Record)
    (contribs : List ℚ) (b p : ℚ)
    (heng : engineSlice e = some (contribs, b))
    (hp : score m rec = some p)
    (hadd : |shapBase01 e + shapSum01 e - proba01 m rec| < 1/10000) :
    |b + contribs.sum - p| < 1/10000 := by
  unfold engineSlice at heng
  cases h0 : e.values.get? 0 with
  | none => rw [h0] at heng; simp at heng
  | some s0 =>
    rw [h0, Option.some_bind] at heng
    cases hcs : classSlice s0 with
    | none => rw [hcs] at heng; simp at heng
    | some cs =>
      rw [hcs, Option.some_bind] at heng
      cases hb0 : e.baseValues.get? 0 with
      | none => rw [hb0] at heng; simp at heng
      | some b0 =>
        rw [hb0, Option.some_bind] at heng
        cases hb1 : b0.get? 1 with
        | none => rw [hb1] at heng; simp at heng
        | some bb =>
          rw [hb1, Option.map_some'] at heng
          simp only [Option.some_inj, Prod.mk.injEq] at heng
          obtain ⟨rfl, rfl⟩ := heng
          have hsum : shapSum01 e = cs.sum := by
            unfold shapSum01
            rw [getD_of_get?_eq [] h0, ← (classSlice_spec hcs).2.2]
          have hbase : shapBase01 e = bb := by
            unfold shapBase01
            rw [getD_of_get?_eq [] hb0, getD_of_get?_eq 0 hb1]
          have hprob : proba01 m rec = p := by
            unfold score at hp
            cases hr0 : (m rec).get? 0 with
            | none => rw [hr0] at hp; simp at hp
            | some row =>
              rw [hr0, Option.some_bind] at hp
              unfold proba01
              rw [getD_of_get?_eq [] hr0, getD_of_get?_eq 0 hp]
          rw [hsum, hbase, hprob] at hadd
          exact hadd

/-- Witness for C5: a one-sample, two-feature tensor whose slice satisfies
the additive identity exactly (baseline 3, contributions 1 and 2,
classifier probability 6). -/
theorem engineSlice_additive_witness :
    |(3:ℚ) + ([1, 2] : List ℚ).sum - 6| < 1/10000 := by
  refine engineSlice_additive shapExample2 classifierConst2 [] [1, 2] 3 6 rfl rfl ?_
  have h1 : shapBase01 shapExample2 = 3 := rfl
  have h2 : shapSum01 shapExample2 = ([1, 2] : List ℚ).sum := rfl
  have h3 : proba01 classifierConst2 [] = 6 := rfl
  rw [h1, h2, h3]
  norm_num

/-- Helper: stripping the index tags returns the original list. -/
theorem withIdx_map_snd : ∀ (i : ℕ) (v : List (String × ℚ)),
    (withIdx i v).map Prod.snd = v := by
  intro i v
  induction v generalizing i with
  | nil => rfl
  | cons x xs ih => simp [withIdx, ih]

/-- Helper: every tagged entry carries an index at least the start index,
and its payload is from the original list. -/
theorem withIdx_mem : ∀ (i : ℕ) (l : List (String × ℚ)) (y : ℕ × String × ℚ),
    y ∈ withIdx i l → i ≤ y.1 ∧ y.2 ∈ l := by
  intro i l
  induction l generalizing i with
  | nil => intro y h; simp [withIdx] at h
  | cons x xs ih =>
    intro y h
    simp only [withIdx, List.mem_cons] at h
    rcases h with rfl | h
    · exact ⟨le_refl _, List.mem_cons_self _ _⟩
    · obtain ⟨h1, h2⟩ := ih (i + 1) y h
      exact ⟨by omega, List.mem_cons_of_mem _ h2⟩

/-- Helper: tagging a list already sorted by descending magnitude with
increasing indices yields a list sorted under `rankRel`. -/
theorem sorted_withIdx : ∀ (i : ℕ) (l : List (String × ℚ)),
    List.Pairwise (fun a b : String × ℚ => |b.2| ≤ |a.2|) l →
    List.Sorted rankRel (withIdx i l) := by
  intro i l
  induction l generalizing i with
  | nil => intro _; exact List.sorted_nil
  | cons x xs ih =>
    intro h
    rw [List.pairwise_cons] at h
    unfold withIdx
    rw [List.sorted_cons]
    refine ⟨?_, ih (i + 1) h.2⟩
    intro y hy
    obtain ⟨hidx, hmem⟩ := withIdx_mem (i + 1) xs y hy
    rcases lt_or_eq_of_le (h.1 y.2 hmem) with hlt | heq
    · exact Or.inl hlt
    · exact Or.inr ⟨heq.symm, by omega⟩

/-- Claim C8: the ranker (modelled from the spec, section 4.5) returns the
(feature, contribution) pairs of the input vector reordered (a
permutation), sorted by descending absolute contribution with ties broken
stably by original feature position (the index-tagged sorted list is
sorted under `rankRel`), returns the empty sequence on empty input, and
re-running it on its own output leaves the ordering identical. -/
theorem rank_spec_ok :
    rank [] = [] ∧
    ∀ v : List (String × ℚ),
      (rank v).Perm v ∧
      List.Sorted rankRel (List.insertionSort rankRel (withIdx 0 v)) ∧
      List.Pairwise (fun a b : String × ℚ => |b.2| ≤ |a.2|) (rank v) ∧
      rank (rank v) = rank v := by
  have habs : ∀ v : List (String × ℚ),
      List.Pairwise (fun a b : String × ℚ => |b.2| ≤ |a.2|) (rank v) := by
    intro v
    have hs : List.Sorted rankRel (List.insertionSort rankRel (withIdx 0 v)) :=
      List.sorted_insertionSort rankRel (withIdx 0 v)
    unfold rank
    rw [List.pairwise_map]
    refine hs.imp ?_
    intro a b hab
    rcases hab with h | ⟨h, _⟩
    · exact le_of_lt h
    · exact le_of_eq h.symm
  refine ⟨rfl, fun v => ⟨?_, List.sorted_insertionSort rankRel (withIdx 0 v), habs v, ?_⟩⟩
  · have hperm : (List.insertionSort rankRel (withIdx 0 v)).Perm (withIdx 0 v) :=
      List.perm_insertionSort rankRel (withIdx 0 v)
    have := hperm.map Prod.snd
    rw [withIdx_map_snd] at this
    exact this
  · have hsorted : List.Sorted rankRel (withIdx 0 (rank v)) :=
      sorted_withIdx 0 (rank v) (habs v)
    show (List.insertionSort rankRel (withIdx 0 (rank v))).map Prod.snd = rank v
    rw [List.Sorted.insertionSort_eq hsorted, withIdx_map_snd]
